import Mathlib

/-!
A shallow embedding of the rolling deployment engine
(deployment_engine/models.py, failure.py, engine.py).

Modelling conventions:
* Python lists of mutable InstanceState objects become a Lean
  (List InstanceState) "fleet"; in-place mutation of the object at input
  position i becomes List.set at index i, and the to_update list of object
  references becomes the list of fleet indices of the instances that need
  an update (input order).
* The asyncio fan-out inside one batch is modelled sequentially in batch
  order: each per-instance task touches only its own instance, and the only
  shared state (the failure injector's per-id attempt counters) is keyed by
  instance_id, so the interleaving is observationally equivalent; the
  outcome list order matches asyncio.gather, which returns results in task
  order.
* Timing-only features (delay_seconds, backoff sleeps, asyncio.wait_for)
  are real-time behaviour and are not given semantics: the per-instance
  update is modelled by the retry loop _do_update.  The corresponding
  config fields are kept in the record for fidelity but are unused.
* Python floats become rationals; machine integers are unbounded in Python
  so Int/Nat are exact.
* Raised exceptions (RuntimeError for the re-entry guard, ValueError from
  plan_batches) become an Except error value; the try/finally cleanup of
  deploy is applied on every exit path of the modelled function.
-/

namespace DeploymentEngine

/-- Health enumeration (models.py). -/
inductive Health where
  | HEALTHY
  | DEGRADED
  | FAILED
deriving DecidableEq, Repr, Inhabited

/-- InstanceState dataclass (models.py). -/
structure InstanceState where
  instance_id : String
  code_version : String
  configuration_version : String
  health : Health
deriving DecidableEq, Repr, Inhabited

/-- SystemState dataclass (models.py). -/
structure SystemState where
  code_version : String
  configuration_version : String
  deployment_in_progress : Bool
deriving DecidableEq, Repr, Inhabited

/-- DeploymentConfig dataclass (models.py).  timeout_s and
retry_base_delay_s only influence real-time behaviour and are unused by the
modelled semantics. -/
structure DeploymentConfig where
  batch_size : Int
  max_failures : Option Int
  failure_percentage : Option ℚ
  timeout_s : Option ℚ
  retry_max_attempts : Int
  retry_base_delay_s : ℚ
deriving DecidableEq, Repr

/-- Fleet-level history events appended by the engine (engine.py). -/
inductive DeployEvent where
  | dry_run (instances_planned : Nat)
  | no_updates_needed (count : Nat)
  | batch_start (batch : Nat) (nodes : List String)
  | batch_completed (batch : Nat) (updated_so_far failed_so_far : Nat)
  | abort (reason : String) (failed_count total_count : Nat)
deriving DecidableEq, Repr

/-- Per-instance history events (engine.py, _process_batch_results). -/
inductive NodeEvent where
  | updated (batch : Nat)
  | failed (batch : Nat) (error : Option String)
deriving DecidableEq, Repr

/-- DeploymentResult dataclass (models.py).  The per_node_history dict is
modelled as an association list in key insertion order. -/
structure DeploymentResult where
  success : Bool
  updated : List String
  failed : List String
  skipped : List String
  aborted_reason : Option String
  rolled_back : Bool
  history : List DeployEvent
  per_node_history : List (String × List NodeEvent)
deriving DecidableEq, Repr

/-- FailureInjector (failure.py): fail_map gives, per instance id, how many
initial attempts fail; attempts is the mutable per-id attempt counter. -/
structure FailureInjector where
  fail_map : String → Nat
  delay : ℚ
  attempts : String → Nat

/-- Exceptions deploy can raise: RuntimeError for the re-entry guard
(the ConcurrentDeploymentError kind) and ValueError from plan_batches
(the ConfigError kind). -/
inductive DeployError where
  | concurrent
  | configError
deriving DecidableEq, Repr

/-- Result record of one per-instance update (the value returned by
_do_update together with the mutated instance and injector state). -/
structure UpdOut where
  ok : Bool
  error : Option String
  inst : InstanceState
  fi : FailureInjector

/-- Result record of the fan-out over one batch. -/
structure BatchOut where
  outcomes : List (String × Bool × Option String)
  fleet : List InstanceState
  fi : FailureInjector

/-- Result record of _process_batch_results. -/
structure ProcOut where
  result : DeploymentResult
  updated : List String
  failed : List String

/-- Result record of _run_batches. -/
structure RunOut where
  fleet : List InstanceState
  fi : FailureInjector
  result : DeploymentResult
  updated : List String
  failed : List String
  aborted : Bool

/-- Everything observable about one deploy call: the final fleet, the final
SystemState, the final injector state and the returned result or raised
error. -/
structure DeployOutput where
  instances : List InstanceState
  current : SystemState
  fi : FailureInjector
  result : Except DeployError DeploymentResult

/-- FailureInjector.should_fail (failure.py): increments the per-id attempt
counter and reports whether this attempt is within the configured number of
failing attempts. -/
def FailureInjector.should_fail (fi : FailureInjector) (inst : InstanceState) :
    Bool × FailureInjector :=
  let id := inst.instance_id
  let n := fi.attempts id + 1
  (decide (n ≤ fi.fail_map id),
   { fi with attempts := fun k => if k = id then n else fi.attempts k })

/-- The successful update action of the executor inside _do_update:
both version fields are set to the desired pair and health to HEALTHY. -/
def applyDesired (inst : InstanceState) (desired : SystemState) : InstanceState :=
  { inst with
    code_version := desired.code_version
    configuration_version := desired.configuration_version
    health := Health.HEALTHY }

/-- The retry loop of _do_update (engine.py).  remaining counts the loop
iterations still available; the Python loop runs attempt = 1..max_attempts,
so remaining = 0 on entry is the fall-through exit (the
"Max attempts exceeded" return), and remaining = 1 marks the final attempt
(attempt >= max_attempts). -/
def doUpdateGo (desired : SystemState) :
    FailureInjector → InstanceState → Nat → Option UpdOut
  | _, _, 0 => none
  | fi, inst, remaining + 1 =>
    let sf := fi.should_fail inst
    if sf.1 then
      if remaining = 0 then
        some ⟨false, some "Simulated deployment failure",
              { inst with health := Health.FAILED }, sf.2⟩
      else
        doUpdateGo desired sf.2 { inst with health := Health.DEGRADED } remaining
    else
      some ⟨true, none, applyDesired inst desired, sf.2⟩

/-- max_attempts = max(1, config.retry_max_attempts + 1) (engine.py,
_do_update). -/
def maxAttemptsOf (config : DeploymentConfig) : Nat :=
  (max 1 (config.retry_max_attempts + 1)).toNat

/-- _update_instance / _do_update (engine.py): run the retry loop; the
unreachable fall-through returns (False, "Max attempts exceeded") leaving
instance and injector as they are at that point. -/
def updateInstance (fi : FailureInjector) (inst : InstanceState)
    (desired : SystemState) (config : DeploymentConfig) : UpdOut :=
  match doUpdateGo desired fi inst (maxAttemptsOf config) with
  | some r => r
  | none => ⟨false, some "Max attempts exceeded", inst, fi⟩

/-- The slicing loop of plan_batches: one chunk of size bs is split off per
step.  fuel bounds the number of steps; plan_batches supplies
fuel = length, which suffices whenever bs ≥ 1. -/
def chunkFuel {α : Type} (bs : Nat) : Nat → List α → List (List α)
  | _, [] => []
  | 0, x :: xs => [x :: xs]
  | fuel + 1, x :: xs => (x :: xs).take bs :: chunkFuel bs fuel ((x :: xs).drop bs)

/-- plan_batches (engine.py): raise ValueError when batch_size <= 0, else
partition into contiguous slices of length batch_size. -/
def planBatches {α : Type} (instances : List α) (batch_size : Int) :
    Except String (List (List α)) :=
  if batch_size ≤ 0 then
    Except.error "batch_size must be > 0"
  else
    Except.ok (chunkFuel batch_size.toNat instances.length instances)

/-- The snapshot dict built by deploy: instance_id maps to a value copy of
the instance; a later duplicate id overwrites an earlier one, as Python
dict assignment does. -/
def buildSnapshot : List InstanceState → String → Option InstanceState
  | [] => fun _ => none
  | inst :: rest => fun k =>
    match buildSnapshot rest k with
    | some s => some s
    | none => if k = inst.instance_id then some inst else none

/-- rollback (engine.py): overwrite code_version, configuration_version and
health from the snapshot for every instance whose id is present; leave
instances absent from the snapshot untouched. -/
def rollbackList (instances : List InstanceState)
    (snapshot : String → Option InstanceState) : List InstanceState :=
  instances.map fun inst =>
    match snapshot inst.instance_id with
    | some snap =>
      { inst with
        code_version := snap.code_version
        configuration_version := snap.configuration_version
        health := snap.health }
    | none => inst

/-- The per-instance diff test of _find_instances_to_update. -/
def needsUpdate (inst : InstanceState) (desired : SystemState) : Bool :=
  decide (inst.code_version ≠ desired.code_version) ||
  decide (inst.configuration_version ≠ desired.configuration_version)

/-- _find_instances_to_update (engine.py), with the to_update list of
object references rendered as the list of fleet indices (input order) of
the instances that need an update, and already_updated as the id list. -/
def findToUpdateGo (desired : SystemState) : List InstanceState → List Nat × List String
  | [] => ([], [])
  | inst :: rest =>
    let r := findToUpdateGo desired rest
    if needsUpdate inst desired then
      (0 :: r.1.map (fun j => j + 1), r.2)
    else
      (r.1.map (fun j => j + 1), inst.instance_id :: r.2)

/-- _find_instances_to_update (engine.py). -/
def findInstancesToUpdate (instances : List InstanceState) (desired : SystemState) :
    List Nat × List String :=
  findToUpdateGo desired instances

/-- Appending one event to per_node_history for a given id
(_process_batch_results creates the key on first use). -/
def pushNodeEvent (m : List (String × List NodeEvent)) (id : String) (e : NodeEvent) :
    List (String × List NodeEvent) :=
  if m.any (fun p => decide (p.1 = id)) then
    m.map (fun p => if p.1 = id then (p.1, p.2 ++ [e]) else p)
  else
    m ++ [(id, [e])]

/-- _process_batch_results (engine.py): pairs is the zip of the batch's
instance ids with the gathered (success, error) outcomes, in batch order. -/
def processBatchResults (pairs : List (String × Bool × Option String)) (batch_idx : Nat)
    (result : DeploymentResult) (updated failed : List String) : ProcOut :=
  match pairs with
  | [] => ⟨result, updated, failed⟩
  | (id, ok, err) :: rest =>
    if ok then
      processBatchResults rest batch_idx
        { result with
          per_node_history := pushNodeEvent result.per_node_history id (NodeEvent.updated batch_idx) }
        (updated ++ [id]) failed
    else
      processBatchResults rest batch_idx
        { result with
          per_node_history := pushNodeEvent result.per_node_history id (NodeEvent.failed batch_idx err) }
        updated (failed ++ [id])

/-- _check_failure_limits (engine.py). -/
def checkFailureLimits (total_instances failed_count : Nat)
    (config : DeploymentConfig) : Bool :=
  if total_instances = 0 || failed_count = 0 then
    false
  else if (match config.max_failures with
           | some m => decide ((failed_count : Int) > m)
           | none => false) then
    true
  else
    match config.failure_percentage with
    | some p => decide ((failed_count : ℚ) / (total_instances : ℚ) * 100 > p)
    | none => false

/-- _handle_dry_run_or_no_updates (engine.py). -/
def handleDryRunOrNoUpdates (result : DeploymentResult) (numToUpdate : Nat)
    (dry : Bool) (desired current : SystemState) : DeploymentResult × SystemState :=
  let result := { result with success := true }
  if dry then
    ({ result with history := result.history ++ [DeployEvent.dry_run numToUpdate] },
     current)
  else if numToUpdate = 0 then
    ({ result with history := result.history ++ [DeployEvent.no_updates_needed 0] },
     { current with
        code_version := desired.code_version
        configuration_version := desired.configuration_version })
  else
    (result, current)

/-- The fan-out of one batch (the gather in _run_batches): update every
listed fleet index; outcome order is batch order, as asyncio.gather
returns results in task order. -/
def runBatchUpdates (desired : SystemState) (config : DeploymentConfig) :
    List Nat → List InstanceState → FailureInjector → BatchOut
  | [], fleet, fi => ⟨[], fleet, fi⟩
  | i :: rest, fleet, fi =>
    let inst := fleet.getD i default
    let u := updateInstance fi inst desired config
    let tail := runBatchUpdates desired config rest (fleet.set i u.inst) u.fi
    ⟨(inst.instance_id, u.ok, u.error) :: tail.outcomes, tail.fleet, tail.fi⟩

/-- _run_batches (engine.py).  total is sum(len(b) for b in batches) over
the full batch list, computed once by the caller. -/
def runBatches (desired : SystemState) (config : DeploymentConfig) (total : Nat)
    (snapshot : String → Option InstanceState) :
    List (List Nat) → Nat → List InstanceState → FailureInjector →
    DeploymentResult → List String → List String → RunOut
  | [], _, fleet, fi, result, updated, failed =>
    ⟨fleet, fi, result, updated, failed, false⟩
  | batch :: rest, batch_idx, fleet, fi, result, updated, failed =>
    let result1 := { result with
      history := result.history ++
        [DeployEvent.batch_start batch_idx
          (batch.map (fun i => (fleet.getD i default).instance_id))] }
    let b := runBatchUpdates desired config batch fleet fi
    let p := processBatchResults b.outcomes batch_idx result1 updated failed
    if checkFailureLimits total p.failed.length config then
      let result2 := { p.result with
        aborted_reason := some "failure thresholds exceeded"
        history := p.result.history ++
          [DeployEvent.abort "failure thresholds exceeded" p.failed.length total]
        rolled_back := true
        updated := []
        failed := p.failed
        success := false }
      ⟨rollbackList b.fleet snapshot, b.fi, result2, p.updated, p.failed, true⟩
    else
      let result2 := { p.result with
        history := p.result.history ++
          [DeployEvent.batch_completed batch_idx p.updated.length p.failed.length] }
      runBatches desired config total snapshot rest (batch_idx + 1)
        b.fleet b.fi result2 p.updated p.failed

/-- The empty DeploymentResult constructed at the top of deploy. -/
def emptyResult : DeploymentResult :=
  ⟨false, [], [], [], none, false, [], []⟩

/-- deploy (engine.py).  The try/finally that clears
deployment_in_progress is applied on every exit path from the point the
flag is set. -/
def deploy (instances : List InstanceState) (desired current : SystemState)
    (config : DeploymentConfig) (dry : Bool) (fi : FailureInjector) : DeployOutput :=
  if current.deployment_in_progress then
    ⟨instances, current, fi, Except.error DeployError.concurrent⟩
  else
    let result0 := emptyResult
    let f := findInstancesToUpdate instances desired
    let result1 := { result0 with skipped := f.2 }
    if dry || f.1.isEmpty then
      let h := handleDryRunOrNoUpdates result1 f.1.length dry desired current
      ⟨instances, h.2, fi, Except.ok h.1⟩
    else
      let current1 := { current with deployment_in_progress := true }
      let snapshot := buildSnapshot instances
      match planBatches f.1 config.batch_size with
      | Except.error _ =>
        ⟨instances, { current1 with deployment_in_progress := false }, fi,
         Except.error DeployError.configError⟩
      | Except.ok batches =>
        let total := (batches.map List.length).sum
        let ro := runBatches desired config total snapshot batches 1 instances fi
          result1 [] []
        if ro.aborted then
          ⟨ro.fleet, { current1 with deployment_in_progress := false }, ro.fi,
           Except.ok ro.result⟩
        else
          let current2 := { current1 with
            code_version := desired.code_version
            configuration_version := desired.configuration_version }
          let resultF := { ro.result with
            updated := ro.updated
            failed := ro.failed
            success := ro.failed.isEmpty }
          ⟨ro.fleet, { current2 with deployment_in_progress := false }, ro.fi,
           Except.ok resultF⟩

/-! Concrete fixtures used by witnesses and counterexamples. -/

/-- An injector with no configured failures and no delay. -/
def fi0 : FailureInjector := ⟨fun _ => 0, 0, fun _ => 0⟩

/-- An injector that fails every attempt on instance a's first attempt. -/
def fiA : FailureInjector := ⟨fun id => if id = "a" then 1 else 0, 0, fun _ => 0⟩

/-- Desired state (v2, c2). -/
def des2 : SystemState := ⟨"v2", "c2", false⟩

/-- Current system state (v1, c1), no deployment running. -/
def cur1 : SystemState := ⟨"v1", "c1", false⟩

/-- Current system state with a deployment already in progress. -/
def curBusy : SystemState := ⟨"v1", "c1", true⟩

/-- Two-instance fleet, both outdated. -/
def instAB : List InstanceState :=
  [⟨"a", "v1", "c1", Health.HEALTHY⟩, ⟨"b", "v1", "c1", Health.HEALTHY⟩]

/-- batch_size 1, max_failures 0, one attempt per instance. -/
def cfgB1F0 : DeploymentConfig := ⟨1, some 0, none, none, 0, 0⟩

/-- batch_size 2, no thresholds, one attempt per instance. -/
def cfgB2 : DeploymentConfig := ⟨2, none, none, none, 0, 0⟩

/-- A run in which every update succeeds (no injected failures). -/
def okOut : DeployOutput := deploy instAB des2 cur1 cfgB1F0 false fi0

/-- The result returned by okOut's deploy call. -/
def okRes : DeploymentResult :=
  match okOut.result with
  | Except.ok r => r
  | Except.error _ => emptyResult

/-- A run that breaches max_failures 0 in the first of two singleton
batches and rolls back. -/
def abortOut : DeployOutput := deploy instAB des2 cur1 cfgB1F0 false fiA

/-- The result returned by abortOut's deploy call. -/
def abortRes : DeploymentResult :=
  match abortOut.result with
  | Except.ok r => r
  | Except.error _ => emptyResult

/-- A run with one batch of two in which a fails and b succeeds, with no
thresholds configured. -/
def mixedOut : DeployOutput := deploy instAB des2 cur1 cfgB2 false fiA

/-- The result returned by mixedOut's deploy call. -/
def mixedRes : DeploymentResult :=
  match mixedOut.result with
  | Except.ok r => r
  | Except.error _ => emptyResult

/-- A dry-run call over a fleet that needs updates. -/
def dryOut : DeployOutput :=
  deploy [⟨"a", "v1", "c1", Health.HEALTHY⟩] des2 cur1 cfgB2 true fi0

/-- The result returned by dryOut's deploy call. -/
def dryRes : DeploymentResult :=
  match dryOut.result with
  | Except.ok r => r
  | Except.error _ => emptyResult

/-! General-purpose list lemmas used by the development. -/

theorem getD_set_self {α : Type} (a d : α) :
    ∀ (l : List α) (i : Nat), i < l.length → (l.set i a).getD i d = a := by
  intro l
  induction l with
  | nil => intro i h; simp at h
  | cons x xs ih =>
    intro i h
    cases i with
    | zero => rfl
    | succ n =>
      simpa [List.getD_cons_succ] using ih n (by simpa using h)

theorem getD_set_ne {α : Type} (a d : α) :
    ∀ (l : List α) (i j : Nat), i ≠ j → (l.set i a).getD j d = l.getD j d := by
  intro l
  induction l with
  | nil => intro i j _; rfl
  | cons x xs ih =>
    intro i j hij
    cases i with
    | zero =>
      cases j with
      | zero => exact absurd rfl hij
      | succ n => rfl
    | succ m =>
      cases j with
      | zero => rfl
      | succ n =>
        simpa [List.getD_cons_succ] using ih m n (fun h => hij (by omega))

theorem map_eq_length_eq {α β : Type} {f : α → β} {l1 l2 : List α}
    (h : l1.map f = l2.map f) : l1.length = l2.length := by
  have := congrArg List.length h
  simpa using this

theorem idFrame_getD {f1 f2 : List InstanceState}
    (hmap : f1.map InstanceState.instance_id = f2.map InstanceState.instance_id) :
    ∀ i : Nat, (f1.getD i default).instance_id = (f2.getD i default).instance_id := by
  induction f1 generalizing f2 with
  | nil =>
    cases f2 with
    | nil => intro i; rfl
    | cons y ys => simp at hmap
  | cons x xs ih =>
    cases f2 with
    | nil => simp at hmap
    | cons y ys =>
      simp only [List.map_cons, List.cons.injEq] at hmap
      intro i
      cases i with
      | zero => exact hmap.1
      | succ n => simpa [List.getD_cons_succ] using ih hmap.2 n

theorem idFrame_mapIdx {f1 f2 : List InstanceState}
    (hmap : f1.map InstanceState.instance_id = f2.map InstanceState.instance_id)
    (L : List Nat) :
    L.map (fun i => (f1.getD i default).instance_id) =
      L.map (fun i => (f2.getD i default).instance_id) := by
  induction L with
  | nil => rfl
  | cons j js ih => rw [List.map_cons, List.map_cons, idFrame_getD hmap j, ih]

/-! Lemmas about the per-instance update loop. -/

theorem should_fail_attempts_self (fi : FailureInjector) (inst : InstanceState) :
    (fi.should_fail inst).2.attempts inst.instance_id =
      fi.attempts inst.instance_id + 1 := by
  simp [FailureInjector.should_fail]

theorem doUpdateGo_ne_none (desired : SystemState) :
    ∀ (remaining : Nat) (fi : FailureInjector) (inst : InstanceState),
      1 ≤ remaining → (doUpdateGo desired fi inst remaining).isSome = true := by
  intro remaining
  induction remaining with
  | zero => intro fi inst h; omega
  | succ n ih =>
    intro fi inst _
    simp only [doUpdateGo]
    by_cases hf : (fi.should_fail inst).1 = true
    · rw [if_pos hf]
      by_cases hn : n = 0
      · rw [if_pos hn]; rfl
      · rw [if_neg hn]
        exact ih _ _ (by omega)
    · rw [if_neg hf]; rfl

theorem doUpdateGo_spec (desired : SystemState) :
    ∀ (remaining : Nat) (fi : FailureInjector) (inst : InstanceState) (r : UpdOut),
      doUpdateGo desired fi inst remaining = some r →
      r.inst.instance_id = inst.instance_id ∧
      (r.ok = true → r.inst = applyDesired inst desired) ∧
      (r.ok = true → r.error = none) ∧
      (r.ok = false → r.error = some "Simulated deployment failure") ∧
      fi.attempts inst.instance_id + 1 ≤ r.fi.attempts inst.instance_id ∧
      r.fi.attempts inst.instance_id ≤ fi.attempts inst.instance_id + remaining := by
  intro remaining
  induction remaining with
  | zero => intro fi inst r h; simp [doUpdateGo] at h
  | succ n ih =>
    intro fi inst r h
    obtain ⟨iid, cv, kv, hh⟩ := inst
    simp only [doUpdateGo] at h
    by_cases hf : (fi.should_fail ⟨iid, cv, kv, hh⟩).1 = true
    · rw [if_pos hf] at h
      by_cases hn : n = 0
      · rw [if_pos hn] at h
        simp only [Option.some.injEq] at h
        subst h
        have ha := should_fail_attempts_self fi ⟨iid, cv, kv, hh⟩
        refine ⟨rfl, by simp, by simp, fun _ => rfl, ?_, ?_⟩ <;> simp [ha]
      · rw [if_neg hn] at h
        have hrec := ih (fi.should_fail ⟨iid, cv, kv, hh⟩).2 ⟨iid, cv, kv, Health.DEGRADED⟩ r h
        have ha := should_fail_attempts_self fi ⟨iid, cv, kv, hh⟩
        obtain ⟨h1, h2, h2e, h3, h4, h5⟩ := hrec
        refine ⟨h1, ?_, h2e, h3, ?_, ?_⟩
        · intro hok
          rw [h2 hok]; rfl
        · simp only [show (⟨iid, cv, kv, Health.DEGRADED⟩ : InstanceState).instance_id = iid
            from rfl] at h4
          simp only [show (⟨iid, cv, kv, hh⟩ : InstanceState).instance_id = iid from rfl] at ha ⊢
          omega
        · simp only [show (⟨iid, cv, kv, Health.DEGRADED⟩ : InstanceState).instance_id = iid
            from rfl] at h5
          simp only [show (⟨iid, cv, kv, hh⟩ : InstanceState).instance_id = iid from rfl] at ha ⊢
          omega
    · rw [if_neg hf] at h
      simp only [Option.some.injEq] at h
      subst h
      have ha := should_fail_attempts_self fi ⟨iid, cv, kv, hh⟩
      refine ⟨rfl, fun _ => rfl, fun _ => rfl, by simp, ?_, ?_⟩ <;> simp [ha]

theorem one_le_maxAttemptsOf (config : DeploymentConfig) : 1 ≤ maxAttemptsOf config := by
  unfold maxAttemptsOf
  have := le_max_left (1 : Int) (config.retry_max_attempts + 1)
  omega

theorem updateInstance_eq_some (fi : FailureInjector) (inst : InstanceState)
    (desired : SystemState) (config : DeploymentConfig) :
    doUpdateGo desired fi inst (maxAttemptsOf config) = some (updateInstance fi inst desired config) := by
  have h := doUpdateGo_ne_none desired (maxAttemptsOf config) fi inst (one_le_maxAttemptsOf config)
  unfold updateInstance
  cases hgo : doUpdateGo desired fi inst (maxAttemptsOf config) with
  | none => rw [hgo] at h; simp at h
  | some r => rfl

theorem updateInstance_spec (fi : FailureInjector) (inst : InstanceState)
    (desired : SystemState) (config : DeploymentConfig) :
    (updateInstance fi inst desired config).inst.instance_id = inst.instance_id ∧
    ((updateInstance fi inst desired config).ok = true →
      (updateInstance fi inst desired config).inst = applyDesired inst desired) ∧
    ((updateInstance fi inst desired config).ok = true →
      (updateInstance fi inst desired config).error = none) ∧
    ((updateInstance fi inst desired config).ok = false →
      (updateInstance fi inst desired config).error = some "Simulated deployment failure") ∧
    fi.attempts inst.instance_id + 1 ≤
      (updateInstance fi inst desired config).fi.attempts inst.instance_id ∧
    (updateInstance fi inst desired config).fi.attempts inst.instance_id ≤
      fi.attempts inst.instance_id + maxAttemptsOf config :=
  doUpdateGo_spec desired (maxAttemptsOf config) fi inst _ (updateInstance_eq_some fi inst desired config)

/-- Claim C9: for every config (including a negative retry_max_attempts)
the retry loop of _do_update performs at least one executor attempt, its
attempt budget is max(1, retry_max_attempts + 1), and the fall-through
branch returning the error "Max attempts exceeded" is unreachable: the
loop always exits through an in-loop return. -/
theorem C9_retry_fall_through_unreachable (fi : FailureInjector) (inst : InstanceState)
    (desired : SystemState) (config : DeploymentConfig) :
    ∃ r : UpdOut,
      doUpdateGo desired fi inst (maxAttemptsOf config) = some r ∧
      updateInstance fi inst desired config = r ∧
      maxAttemptsOf config = (max 1 (config.retry_max_attempts + 1)).toNat ∧
      1 ≤ maxAttemptsOf config ∧
      fi.attempts inst.instance_id + 1 ≤ r.fi.attempts inst.instance_id ∧
      r.fi.attempts inst.instance_id ≤ fi.attempts inst.instance_id + maxAttemptsOf config ∧
      r.error ≠ some "Max attempts exceeded" := by
  refine ⟨updateInstance fi inst desired config,
    updateInstance_eq_some fi inst desired config, rfl, rfl,
    one_le_maxAttemptsOf config, ?_, ?_, ?_⟩
  · exact (updateInstance_spec fi inst desired config).2.2.2.2.1
  · exact (updateInstance_spec fi inst desired config).2.2.2.2.2
  · obtain ⟨_, _, h3, h4, _, _⟩ := updateInstance_spec fi inst desired config
    cases hok : (updateInstance fi inst desired config).ok with
    | true => rw [h3 hok]; simp
    | false => rw [h4 hok]; simp

/-- Claim C5: the failure-threshold predicate _check_failure_limits returns
false when total or failed is zero, trips on max_failures only for strictly
more failures than the cap, otherwise trips on failure_percentage when the
failure rate strictly exceeds it, and returns false otherwise. -/
theorem C5_failure_threshold (total failed : Nat) (config : DeploymentConfig) :
    checkFailureLimits total failed config = true ↔
      total ≠ 0 ∧ failed ≠ 0 ∧
        ((∃ m, config.max_failures = some m ∧ m < (failed : Int)) ∨
         (∃ p, config.failure_percentage = some p ∧ p < (failed : ℚ) / (total : ℚ) * 100)) := by
  by_cases ht : total = 0
  · simp [checkFailureLimits, ht]
  by_cases hf : failed = 0
  · simp [checkFailureLimits, hf]
  rcases hm : config.max_failures with _ | m <;>
    rcases hp : config.failure_percentage with _ | p <;>
      simp [checkFailureLimits, hm, hp, ht, hf]

/-- Claim C7: if deployment_in_progress is already true on entry, deploy
raises the concurrent-deployment error immediately and mutates nothing:
the fleet, the current SystemState and the injector are returned exactly
as passed in and no DeploymentResult is produced. -/
theorem C7_reentry_guard (instances : List InstanceState) (desired current : SystemState)
    (config : DeploymentConfig) (dry : Bool) (fi : FailureInjector)
    (h : current.deployment_in_progress = true) :
    deploy instances desired current config dry fi =
      ⟨instances, current, fi, Except.error DeployError.concurrent⟩ := by
  unfold deploy
  rw [if_pos h]

theorem C7_witness :
    curBusy.deployment_in_progress = true ∧
    deploy instAB des2 curBusy cfgB1F0 false fi0 =
      ⟨instAB, curBusy, fi0, Except.error DeployError.concurrent⟩ :=
  ⟨rfl, C7_reentry_guard instAB des2 curBusy cfgB1F0 false fi0 rfl⟩

/-! Lemmas about batch planning. -/

theorem chunkFuel_nil {α : Type} (bs fuel : Nat) : chunkFuel (α := α) bs fuel [] = [] := by
  cases fuel <;> rfl

theorem chunkFuel_flatten {α : Type} (bs : Nat) (hbs : 1 ≤ bs) :
    ∀ (fuel : Nat) (l : List α), l.length ≤ fuel → (chunkFuel bs fuel l).flatten = l := by
  intro fuel
  induction fuel with
  | zero =>
    intro l h
    cases l with
    | nil => rfl
    | cons x xs => simp at h
  | succ n ih =>
    intro l h
    cases l with
    | nil => rfl
    | cons x xs =>
      simp only [chunkFuel, List.flatten_cons]
      rw [ih ((x :: xs).drop bs) (by simp only [List.length_drop, List.length_cons] at h ⊢; omega),
        List.take_append_drop]

theorem chunkFuel_mem {α : Type} (bs : Nat) (hbs : 1 ≤ bs) :
    ∀ (fuel : Nat) (l : List α), l.length ≤ fuel →
      ∀ c ∈ chunkFuel bs fuel l, c ≠ [] ∧ c.length ≤ bs := by
  intro fuel
  induction fuel with
  | zero =>
    intro l h
    cases l with
    | nil => intro c hc; simp [chunkFuel] at hc
    | cons x xs => simp at h
  | succ n ih =>
    intro l h
    cases l with
    | nil => intro c hc; simp [chunkFuel] at hc
    | cons x xs =>
      intro c hc
      simp only [chunkFuel, List.mem_cons] at hc
      rcases hc with rfl | hc
      · constructor
        · apply List.length_pos.mp
          rw [List.length_take]
          simp; omega
        · rw [List.length_take]; omega
      · exact ih ((x :: xs).drop bs) (by simp only [List.length_drop, List.length_cons] at h ⊢; omega) c hc

theorem chunkFuel_dropLast {α : Type} (bs : Nat) (hbs : 1 ≤ bs) :
    ∀ (fuel : Nat) (l : List α), l.length ≤ fuel →
      ∀ c ∈ (chunkFuel bs fuel l).dropLast, c.length = bs := by
  intro fuel
  induction fuel with
  | zero =>
    intro l h
    cases l with
    | nil => intro c hc; simp [chunkFuel] at hc
    | cons x xs => simp at h
  | succ n ih =>
    intro l h
    cases l with
    | nil => intro c hc; simp [chunkFuel] at hc
    | cons x xs =>
      intro c hc
      simp only [chunkFuel] at hc
      cases hrest : chunkFuel bs n ((x :: xs).drop bs) with
      | nil => rw [hrest] at hc; simp at hc
      | cons r rs =>
        rw [hrest, List.dropLast_cons₂, List.mem_cons] at hc
        have hdrop : (x :: xs).drop bs ≠ [] := by
          intro h0
          rw [h0, chunkFuel_nil] at hrest
          exact List.noConfusion hrest
        have hlen : bs < (x :: xs).length := by
          by_contra hle
          have : (x :: xs).drop bs = [] := by
            apply List.eq_nil_of_length_eq_zero
            rw [List.length_drop]; omega
          exact hdrop this
        rcases hc with rfl | hc
        · rw [List.length_take]; omega
        · rw [← hrest] at hc
          exact ih ((x :: xs).drop bs)
            (by simp only [List.length_drop, List.length_cons] at h hlen ⊢; omega) c hc

/-- Claim C8: plan_batches raises a configuration error exactly when
batch_size < 1; otherwise it returns the partition of the input into
contiguous slices of length batch_size in input order (their concatenation
is the input), every slice is nonempty and at most batch_size long, every
slice except possibly the last is exactly batch_size long, and an empty
input yields an empty batch list. -/
theorem C8_plan_batches {α : Type} (instances : List α) (batch_size : Int) :
    ((∃ e, planBatches instances batch_size = Except.error e) ↔ batch_size < 1) ∧
    (∀ cs, planBatches instances batch_size = Except.ok cs →
      cs.flatten = instances ∧
      (∀ c ∈ cs, c ≠ [] ∧ c.length ≤ batch_size.toNat) ∧
      (∀ c ∈ cs.dropLast, c.length = batch_size.toNat) ∧
      (instances = [] → cs = [])) := by
  constructor
  · constructor
    · rintro ⟨e, he⟩
      unfold planBatches at he
      by_cases h : batch_size ≤ 0
      · omega
      · rw [if_neg h] at he
        exact Except.noConfusion he
    · intro h
      refine ⟨"batch_size must be > 0", ?_⟩
      unfold planBatches
      rw [if_pos (by omega)]
  · intro cs hcs
    unfold planBatches at hcs
    by_cases h : batch_size ≤ 0
    · rw [if_pos h] at hcs
      exact Except.noConfusion hcs
    · rw [if_neg h] at hcs
      have hcs' := Except.ok.inj hcs
      subst hcs'
      have hbs : 1 ≤ batch_size.toNat := by omega
      refine ⟨chunkFuel_flatten _ hbs _ _ le_rfl, chunkFuel_mem _ hbs _ _ le_rfl,
        chunkFuel_dropLast _ hbs _ _ le_rfl, ?_⟩
      intro h0
      subst h0
      exact chunkFuel_nil _ _

theorem C8_witness :
    (∃ e, planBatches ([] : List Nat) 0 = Except.error e) ∧
    ([[1, 2], [3]] : List (List Nat)).flatten = [1, 2, 3] :=
  ⟨(C8_plan_batches ([] : List Nat) 0).1.mpr (by decide),
   ((C8_plan_batches [1, 2, 3] 2).2 [[1, 2], [3]] rfl).1⟩

/-! Lemmas about the diff step _find_instances_to_update. -/

theorem findToUpdateGo_mem (desired : SystemState) :
    ∀ (l : List InstanceState) (j : Nat),
      j ∈ (findToUpdateGo desired l).1 ↔
        (j < l.length ∧ needsUpdate (l.getD j default) desired = true) := by
  intro l
  induction l with
  | nil => intro j; simp [findToUpdateGo]
  | cons inst rest ih =>
    intro j
    by_cases hni : needsUpdate inst desired = true
    · simp only [findToUpdateGo, if_pos hni]
      constructor
      · intro hj
        rcases List.mem_cons.mp hj with rfl | hj
        · exact ⟨by simp, by simpa using hni⟩
        · rcases List.mem_map.mp hj with ⟨j', hj', rfl⟩
          have h' := (ih j').mp hj'
          exact ⟨by simp; omega, by simpa [List.getD_cons_succ] using h'.2⟩
      · rintro ⟨hlt, hneed⟩
        cases j with
        | zero => exact List.mem_cons_self _ _
        | succ j' =>
          refine List.mem_cons_of_mem _ (List.mem_map.mpr ⟨j', ?_, rfl⟩)
          exact (ih j').mpr ⟨by simpa using hlt, by simpa [List.getD_cons_succ] using hneed⟩
    · simp only [findToUpdateGo, if_neg hni]
      constructor
      · intro hj
        rcases List.mem_map.mp hj with ⟨j', hj', rfl⟩
        have h' := (ih j').mp hj'
        exact ⟨by simp; omega, by simpa [List.getD_cons_succ] using h'.2⟩
      · rintro ⟨hlt, hneed⟩
        cases j with
        | zero => simp at hneed; exact absurd hneed hni
        | succ j' =>
          refine List.mem_map.mpr ⟨j', ?_, rfl⟩
          exact (ih j').mpr ⟨by simpa using hlt, by simpa [List.getD_cons_succ] using hneed⟩

theorem findToUpdateGo_nodup (desired : SystemState) :
    ∀ l : List InstanceState, (findToUpdateGo desired l).1.Nodup := by
  intro l
  induction l with
  | nil => simp [findToUpdateGo]
  | cons inst rest ih =>
    have hmap : ((findToUpdateGo desired rest).1.map (fun j => j + 1)).Nodup :=
      ih.map (fun a b h => by omega)
    by_cases hni : needsUpdate inst desired = true
    · simp only [findToUpdateGo, if_pos hni]
      refine List.Nodup.cons ?_ hmap
      intro h0
      rcases List.mem_map.mp h0 with ⟨j', _, hj'⟩
      omega
    · simp only [findToUpdateGo, if_neg hni]
      exact hmap

theorem findToUpdateGo_map_getD (desired : SystemState) :
    ∀ l : List InstanceState,
      (findToUpdateGo desired l).1.map (fun j => l.getD j default) =
        l.filter (fun x => needsUpdate x desired) := by
  intro l
  induction l with
  | nil => simp [findToUpdateGo]
  | cons inst rest ih =>
    by_cases hni : needsUpdate inst desired = true
    · rw [List.filter_cons_of_pos (by simpa using hni)]
      simp only [findToUpdateGo, if_pos hni, List.map_cons, List.map_map,
        List.getD_cons_zero]
      refine congrArg (inst :: ·) ?_
      rw [← ih]
      congr 1
    · rw [List.filter_cons_of_neg (by simpa using hni)]
      simp only [findToUpdateGo, if_neg hni, List.map_map]
      rw [← ih]
      congr 1

theorem findToUpdateGo_skipped (desired : SystemState) :
    ∀ l : List InstanceState,
      (findToUpdateGo desired l).2 =
        (l.filter (fun x => !needsUpdate x desired)).map InstanceState.instance_id := by
  intro l
  induction l with
  | nil => simp [findToUpdateGo]
  | cons inst rest ih =>
    by_cases hni : needsUpdate inst desired = true
    · simp only [findToUpdateGo, if_pos hni]
      rw [List.filter_cons_of_neg (by simp [hni])]
      exact ih
    · simp only [findToUpdateGo, if_neg hni]
      rw [List.filter_cons_of_pos (by simp [Bool.not_eq_true] at hni ⊢; exact hni)]
      simp [ih]

/-! Lemmas about the snapshot and rollback. -/

theorem buildSnapshot_not_mem (id : String) :
    ∀ l : List InstanceState,
      id ∉ l.map InstanceState.instance_id → buildSnapshot l id = none := by
  intro l
  induction l with
  | nil => intro _; rfl
  | cons inst rest ih =>
    intro h
    simp only [List.map_cons, List.mem_cons, not_or] at h
    simp only [buildSnapshot, ih h.2]
    rw [if_neg h.1]

theorem buildSnapshot_mem (x : InstanceState) :
    ∀ l : List InstanceState, (l.map InstanceState.instance_id).Nodup → x ∈ l →
      buildSnapshot l x.instance_id = some x := by
  intro l
  induction l with
  | nil => intro _ hx; simp at hx
  | cons inst rest ih =>
    intro hnd hx
    simp only [List.map_cons, List.nodup_cons] at hnd
    rcases List.mem_cons.mp hx with rfl | hx
    · simp only [buildSnapshot, buildSnapshot_not_mem _ rest hnd.1]
      simp
    · simp only [buildSnapshot, ih hnd.2 hx]

theorem rollbackList_map_id (snap : String → Option InstanceState) :
    ∀ l : List InstanceState,
      (rollbackList l snap).map InstanceState.instance_id =
        l.map InstanceState.instance_id := by
  intro l
  induction l with
  | nil => rfl
  | cons inst rest ih =>
    simp only [rollbackList, List.map_cons] at ih ⊢
    rw [ih]
    cases snap inst.instance_id <;> rfl

theorem rollbackList_exact (snap : String → Option InstanceState) :
    ∀ (fc orig : List InstanceState),
      fc.map InstanceState.instance_id = orig.map InstanceState.instance_id →
      (∀ x ∈ orig, snap x.instance_id = some x) →
      rollbackList fc snap = orig := by
  intro fc
  induction fc with
  | nil =>
    intro orig hmap _
    cases orig with
    | nil => rfl
    | cons y ys => simp at hmap
  | cons a fc' ih =>
    intro orig hmap hsnap
    cases orig with
    | nil => simp at hmap
    | cons o orig' =>
      simp only [List.map_cons, List.cons.injEq] at hmap
      simp only [rollbackList, List.map_cons]
      have hso : snap a.instance_id = some o := by
        rw [hmap.1]
        exact hsnap o (List.mem_cons_self _ _)
      have htail := ih orig' hmap.2 (fun x hx => hsnap x (List.mem_cons_of_mem _ hx))
      simp only [rollbackList, List.map_cons] at htail ⊢
      rw [htail, List.cons.injEq]
      refine ⟨?_, rfl⟩
      rw [hso]
      obtain ⟨aid, ac, ak, ah⟩ := a
      obtain ⟨oid, oc, okk, oh⟩ := o
      simp only [InstanceState.mk.injEq] at hmap
      simp [hmap.1]

/-! Lemmas about batch execution. -/

theorem map_set_id {fleet : List InstanceState} {a : InstanceState} :
    ∀ {i : Nat}, a.instance_id = (fleet.getD i default).instance_id →
    (fleet.set i a).map InstanceState.instance_id =
      fleet.map InstanceState.instance_id := by
  induction fleet with
  | nil => intro i _; rfl
  | cons x xs ih =>
    intro i h
    cases i with
    | zero =>
      simp only [List.set_cons_zero, List.map_cons]
      rw [show a.instance_id = x.instance_id from h]
    | succ n =>
      simp only [List.set_cons_succ, List.map_cons]
      rw [ih (by simpa [List.getD_cons_succ] using h)]

theorem perm_append_swap {α : Type} (w x : List α) :
    ∀ y z : List α, List.Perm ((w ++ x) ++ (y ++ z)) ((w ++ y) ++ (x ++ z)) := by
  intro y z
  have hmid := (@List.perm_append_comm _ x y).append (List.Perm.refl z)
  have hswap : List.Perm (x ++ (y ++ z)) (y ++ (x ++ z)) := by
    simpa [List.append_assoc] using hmid
  simpa [List.append_assoc] using (List.Perm.refl w).append hswap

theorem processBatchResults_spec (batch_idx : Nat) :
    ∀ (pairs : List (String × Bool × Option String)) (result : DeploymentResult)
      (updated failed : List String),
      (processBatchResults pairs batch_idx result updated failed).updated =
        updated ++ (pairs.filter (fun q => q.2.1)).map (fun q => q.1) ∧
      (processBatchResults pairs batch_idx result updated failed).failed =
        failed ++ (pairs.filter (fun q => !q.2.1)).map (fun q => q.1) ∧
      (processBatchResults pairs batch_idx result updated failed).result.success =
        result.success ∧
      (processBatchResults pairs batch_idx result updated failed).result.rolled_back =
        result.rolled_back ∧
      (processBatchResults pairs batch_idx result updated failed).result.skipped =
        result.skipped ∧
      (processBatchResults pairs batch_idx result updated failed).result.aborted_reason =
        result.aborted_reason ∧
      (processBatchResults pairs batch_idx result updated failed).result.updated =
        result.updated ∧
      (processBatchResults pairs batch_idx result updated failed).result.failed =
        result.failed := by
  intro pairs
  induction pairs with
  | nil => intro result updated failed; simp [processBatchResults]
  | cons q rest ih =>
    obtain ⟨id, ok, err⟩ := q
    intro result updated failed
    cases ok with
    | true =>
      obtain ⟨h1, h2, h3, h4, h5, h6, h7, h8⟩ :=
        ih { result with
              per_node_history :=
                pushNodeEvent result.per_node_history id (NodeEvent.updated batch_idx) }
          (updated ++ [id]) failed
      refine ⟨?_, ?_, ?_, ?_, ?_, ?_, ?_, ?_⟩ <;>
        simp [processBatchResults, h1, h2, h3, h4, h5, h6, h7, h8,
          List.filter_cons, List.append_assoc]
    | false =>
      obtain ⟨h1, h2, h3, h4, h5, h6, h7, h8⟩ :=
        ih { result with
              per_node_history :=
                pushNodeEvent result.per_node_history id (NodeEvent.failed batch_idx err) }
          updated (failed ++ [id])
      refine ⟨?_, ?_, ?_, ?_, ?_, ?_, ?_, ?_⟩ <;>
        simp [processBatchResults, h1, h2, h3, h4, h5, h6, h7, h8,
          List.filter_cons, List.append_assoc]

theorem runBatchUpdates_spec (desired : SystemState) (config : DeploymentConfig) :
    ∀ (batch : List Nat) (fleet : List InstanceState) (fi : FailureInjector),
      (∀ i ∈ batch, i < fleet.length) →
      ((runBatchUpdates desired config batch fleet fi).fleet.map InstanceState.instance_id =
        fleet.map InstanceState.instance_id) ∧
      ((runBatchUpdates desired config batch fleet fi).outcomes.map (fun q => q.1) =
        batch.map (fun i => (fleet.getD i default).instance_id)) ∧
      (∀ j, j ∉ batch →
        (runBatchUpdates desired config batch fleet fi).fleet.getD j default =
          fleet.getD j default) ∧
      (batch.Nodup →
        ∀ i ∈ batch, ∃ ok err,
          ((fleet.getD i default).instance_id, ok, err) ∈
            (runBatchUpdates desired config batch fleet fi).outcomes ∧
          (ok = true →
            (runBatchUpdates desired config batch fleet fi).fleet.getD i default =
              applyDesired (fleet.getD i default) desired)) := by
  intro batch
  induction batch with
  | nil =>
    intro fleet fi _
    refine ⟨rfl, rfl, fun j _ => rfl, fun _ i hi => absurd hi (by simp)⟩
  | cons i rest ih =>
    intro fleet fi hrange
    have hi : i < fleet.length := hrange i (List.mem_cons_self _ _)
    obtain ⟨u1, u2, u2e, u3, u4, u5⟩ :=
      updateInstance_spec fi (fleet.getD i default) desired config
    have hmap1 : ((fleet.set i (updateInstance fi (fleet.getD i default) desired config).inst).map
        InstanceState.instance_id) = fleet.map InstanceState.instance_id :=
      map_set_id u1
    have hrange' : ∀ j ∈ rest,
        j < (fleet.set i (updateInstance fi (fleet.getD i default) desired config).inst).length := by
      intro j hj
      rw [List.length_set]
      exact hrange j (List.mem_cons_of_mem _ hj)
    obtain ⟨g1, g2, g3, g4⟩ :=
      ih (fleet.set i (updateInstance fi (fleet.getD i default) desired config).inst)
        (updateInstance fi (fleet.getD i default) desired config).fi hrange'
    refine ⟨?_, ?_, ?_, ?_⟩
    · simp only [runBatchUpdates]
      rw [g1, hmap1]
    · simp only [runBatchUpdates, List.map_cons]
      rw [g2, idFrame_mapIdx hmap1 rest]
    · intro j hj
      simp only [List.mem_cons, not_or] at hj
      simp only [runBatchUpdates]
      rw [g3 j hj.2, getD_set_ne _ _ fleet i j (fun h => hj.1 h.symm)]
    · intro hnd i' hi'
      simp only [List.nodup_cons] at hnd
      rcases List.mem_cons.mp hi' with rfl | hi'
      · refine ⟨(updateInstance fi (fleet.getD i' default) desired config).ok,
          (updateInstance fi (fleet.getD i' default) desired config).error, ?_, ?_⟩
        · simp [runBatchUpdates]
        · intro hok
          simp only [runBatchUpdates]
          rw [g3 i' hnd.1, getD_set_self _ _ fleet i' hi, u2 hok]
      · have hne : i ≠ i' := fun h => hnd.1 (h ▸ hi')
        obtain ⟨ok, err, hmem, hupd⟩ := g4 hnd.2 i' hi'
        have hgd : ((fleet.set i (updateInstance fi (fleet.getD i default) desired config).inst).getD
            i' default) = fleet.getD i' default :=
          getD_set_ne _ _ fleet i i' hne
        refine ⟨ok, err, ?_, ?_⟩
        · rw [← hgd]
          simp only [runBatchUpdates, List.mem_cons]
          right; exact hmem
        · intro hok
          simp only [runBatchUpdates]
          rw [← hgd]
          exact hupd hok

theorem runBatches_spec (desired : SystemState) (config : DeploymentConfig) (total : Nat)
    (snapshot : String → Option InstanceState) :
    ∀ (batches : List (List Nat)) (batch_idx : Nat) (fleet : List InstanceState)
      (fi : FailureInjector) (result : DeploymentResult) (updated failed : List String)
      (ro : RunOut),
      ro = runBatches desired config total snapshot batches batch_idx fleet fi result
        updated failed →
      (∀ i ∈ batches.flatten, i < fleet.length) →
      batches.flatten.Nodup →
      (ro.fleet.map InstanceState.instance_id = fleet.map InstanceState.instance_id) ∧
      (ro.aborted = false →
        (∃ u' f',
          ro.updated = updated ++ u' ∧
          ro.failed = failed ++ f' ∧
          List.Sublist u'
            (batches.flatten.map (fun i => (fleet.getD i default).instance_id)) ∧
          List.Sublist f'
            (batches.flatten.map (fun i => (fleet.getD i default).instance_id)) ∧
          List.Perm (u' ++ f')
            (batches.flatten.map (fun i => (fleet.getD i default).instance_id))) ∧
        (ro.result.skipped = result.skipped ∧
         ro.result.success = result.success ∧
         ro.result.rolled_back = result.rolled_back ∧
         ro.result.updated = result.updated ∧
         ro.result.failed = result.failed ∧
         ro.result.aborted_reason = result.aborted_reason) ∧
        (∀ j, j ∉ batches.flatten → ro.fleet.getD j default = fleet.getD j default) ∧
        (∀ i ∈ batches.flatten,
          ro.fleet.getD i default = applyDesired (fleet.getD i default) desired ∨
          (fleet.getD i default).instance_id ∈ ro.failed)) ∧
      (ro.aborted = true →
        ro.result.rolled_back = true ∧
        ro.result.success = false ∧
        ro.result.updated = [] ∧
        ro.result.skipped = result.skipped ∧
        ro.result.aborted_reason = some "failure thresholds exceeded" ∧
        ∃ fc, fc.map InstanceState.instance_id = fleet.map InstanceState.instance_id ∧
          ro.fleet = rollbackList fc snapshot) := by
  intro batches
  induction batches with
  | nil =>
    intro batch_idx fleet fi result updated failed ro hro _ _
    subst hro
    refine ⟨rfl, ?_, ?_⟩
    · intro _
      refine ⟨⟨[], [], by simp [runBatches], by simp [runBatches], by simp, by simp, by simp⟩,
        ⟨rfl, rfl, rfl, rfl, rfl, rfl⟩, fun j _ => rfl, ?_⟩
      intro i hi
      simp at hi
    · intro h
      simp [runBatches] at h
  | cons batch rest ihr =>
    intro batch_idx fleet fi result updated failed ro hro hrange hnd
    rw [List.flatten_cons] at hrange hnd ⊢
    obtain ⟨hnd1, hnd2, hdisj⟩ := List.nodup_append.mp hnd
    have hrangeB : ∀ i ∈ batch, i < fleet.length :=
      fun i hi => hrange i (List.mem_append.mpr (Or.inl hi))
    have hrangeR : ∀ i ∈ rest.flatten, i < fleet.length :=
      fun i hi => hrange i (List.mem_append.mpr (Or.inr hi))
    obtain ⟨b1, b2, b3, b4⟩ := runBatchUpdates_spec desired config batch fleet fi hrangeB
    obtain ⟨p1, p2, p3, p4, p5, p6, p7, p8⟩ :=
      processBatchResults_spec batch_idx
        (runBatchUpdates desired config batch fleet fi).outcomes
        { result with
          history := result.history ++
            [DeployEvent.batch_start batch_idx
              (batch.map (fun i => (fleet.getD i default).instance_id))] }
        updated failed
    simp only [runBatches] at hro
    set B := runBatchUpdates desired config batch fleet fi with hB
    set R1 := { result with
      history := result.history ++
        [DeployEvent.batch_start batch_idx
          (batch.map (fun i => (fleet.getD i default).instance_id))] } with hR1
    set P := processBatchResults B.outcomes batch_idx R1 updated failed with hP
    have hr1skip : R1.skipped = result.skipped := by rw [hR1]
    have hr1succ : R1.success = result.success := by rw [hR1]
    have hr1rb : R1.rolled_back = result.rolled_back := by rw [hR1]
    have hr1upd : R1.updated = result.updated := by rw [hR1]
    have hr1fail : R1.failed = result.failed := by rw [hR1]
    have hr1ab : R1.aborted_reason = result.aborted_reason := by rw [hR1]
    have hub_sub : List.Sublist ((B.outcomes.filter (fun q => q.2.1)).map (fun q => q.1))
        (batch.map (fun i => (fleet.getD i default).instance_id)) := by
      have h := (List.filter_sublist (p := fun q => q.2.1) B.outcomes).map (fun q => q.1)
      rwa [b2] at h
    have hfb_sub : List.Sublist ((B.outcomes.filter (fun q => !q.2.1)).map (fun q => q.1))
        (batch.map (fun i => (fleet.getD i default).instance_id)) := by
      have h := (List.filter_sublist (p := fun q => !q.2.1) B.outcomes).map (fun q => q.1)
      rwa [b2] at h
    have hperm_b : List.Perm
        ((B.outcomes.filter (fun q => q.2.1)).map (fun q => q.1) ++
          (B.outcomes.filter (fun q => !q.2.1)).map (fun q => q.1))
        (batch.map (fun i => (fleet.getD i default).instance_id)) := by
      have h := (List.filter_append_perm (fun q => q.2.1) B.outcomes).map (fun q => q.1)
      rwa [List.map_append, b2] at h
    by_cases habort : checkFailureLimits total P.failed.length config = true
    · rw [if_pos habort] at hro
      refine ⟨?_, ?_, ?_⟩
      · rw [hro]
        show (rollbackList B.fleet snapshot).map InstanceState.instance_id =
          fleet.map InstanceState.instance_id
        rw [rollbackList_map_id, b1]
      · intro hfalse
        rw [hro] at hfalse
        simp at hfalse
      · intro _
        refine ⟨?_, ?_, ?_, ?_, ?_, ?_⟩
        · rw [hro]
        · rw [hro]
        · rw [hro]
        · rw [hro]
          show P.result.skipped = result.skipped
          rw [p5, hr1skip]
        · rw [hro]
        · refine ⟨B.fleet, b1, ?_⟩
          rw [hro]
    · rw [if_neg habort] at hro
      have hlen : B.fleet.length = fleet.length := map_eq_length_eq b1
      have hrangeR' : ∀ i ∈ rest.flatten, i < B.fleet.length := by
        intro i hi
        rw [hlen]
        exact hrangeR i hi
      obtain ⟨g1, g2, g3⟩ := ihr (batch_idx + 1) B.fleet B.fi
        { P.result with
          history := P.result.history ++
            [DeployEvent.batch_completed batch_idx P.updated.length P.failed.length] }
        P.updated P.failed ro hro hrangeR' hnd2
      have hJ : rest.flatten.map (fun i => (B.fleet.getD i default).instance_id) =
          rest.flatten.map (fun i => (fleet.getD i default).instance_id) :=
        idFrame_mapIdx b1 rest.flatten
      refine ⟨g1.trans b1, ?_, ?_⟩
      · intro hnab
        obtain ⟨⟨u2, f2, hu, hf, hsU, hsF, hpm⟩, gfields, gframe, gE⟩ := g2 hnab
        rw [hJ] at hsU hsF hpm
        refine ⟨⟨(B.outcomes.filter (fun q => q.2.1)).map (fun q => q.1) ++ u2,
          (B.outcomes.filter (fun q => !q.2.1)).map (fun q => q.1) ++ f2, ?_, ?_, ?_, ?_, ?_⟩,
          ?_, ?_, ?_⟩
        · rw [hu, p1, List.append_assoc]
        · rw [hf, p2, List.append_assoc]
        · rw [List.map_append]
          exact hub_sub.append hsU
        · rw [List.map_append]
          exact hfb_sub.append hsF
        · rw [List.map_append]
          exact (perm_append_swap _ _ _ _).trans (hperm_b.append hpm)
        · exact ⟨gfields.1.trans (p5.trans hr1skip),
            gfields.2.1.trans (p3.trans hr1succ),
            gfields.2.2.1.trans (p4.trans hr1rb),
            gfields.2.2.2.1.trans (p7.trans hr1upd),
            gfields.2.2.2.2.1.trans (p8.trans hr1fail),
            gfields.2.2.2.2.2.trans (p6.trans hr1ab)⟩
        · intro j hj
          simp only [List.mem_append, not_or] at hj
          rw [gframe j hj.2, b3 j hj.1]
        · intro i hi
          rcases List.mem_append.mp hi with hib | hir
          · obtain ⟨ok, err, hmem, hupd⟩ := b4 hnd1 i hib
            cases ok with
            | true =>
              left
              have h2 : ro.fleet.getD i default = B.fleet.getD i default :=
                gframe i (fun hc => hdisj hib hc)
              rw [h2, hupd rfl]
            | false =>
              right
              have hfmem : ((fleet.getD i default).instance_id, false, err) ∈
                  B.outcomes.filter (fun q => !q.2.1) :=
                List.mem_filter.mpr ⟨hmem, rfl⟩
              have hidmem : (fleet.getD i default).instance_id ∈
                  (B.outcomes.filter (fun q => !q.2.1)).map (fun q => q.1) :=
                List.mem_map.mpr ⟨_, hfmem, rfl⟩
              rw [hf, p2]
              simp only [List.mem_append]
              exact Or.inl (Or.inr hidmem)
          · rcases gE i hir with hL | hR
            · left
              rw [b3 i (fun hc => hdisj hc hir)] at hL
              exact hL
            · right
              rw [idFrame_getD b1 i] at hR
              exact hR
      · intro hab
        obtain ⟨q1, q2, q3, q4, q5, q6⟩ := g3 hab
        refine ⟨q1, q2, q3, ?_, q5, ?_⟩
        · exact q4.trans (p5.trans hr1skip)
        · obtain ⟨fc, hfc1, hfc2⟩ := q6
          exact ⟨fc, hfc1.trans b1, hfc2⟩

/-! Deploy-level lemmas. -/

theorem handleDryRunOrNoUpdates_fields (result : DeploymentResult) (n : Nat) (dry : Bool)
    (desired current : SystemState) :
    (handleDryRunOrNoUpdates result n dry desired current).1.success = true ∧
    (handleDryRunOrNoUpdates result n dry desired current).1.updated = result.updated ∧
    (handleDryRunOrNoUpdates result n dry desired current).1.failed = result.failed ∧
    (handleDryRunOrNoUpdates result n dry desired current).1.skipped = result.skipped ∧
    (handleDryRunOrNoUpdates result n dry desired current).1.rolled_back =
      result.rolled_back ∧
    (handleDryRunOrNoUpdates result n dry desired current).2.deployment_in_progress =
      current.deployment_in_progress := by
  unfold handleDryRunOrNoUpdates
  split_ifs <;> simp

/-- The one master lemma about deploy from which the deploy-level claims
follow: id-frame preservation of the fleet, flag hygiene for calls entered
with the flag down, and, for every returned result: the skipped list, the
rollback facts, the order facts for updated and failed, and the
final state of non-skipped instances on a fully successful run. -/
theorem deploy_spec (instances : List InstanceState) (desired current : SystemState)
    (config : DeploymentConfig) (dry : Bool) (fi : FailureInjector) :
    ((deploy instances desired current config dry fi).instances.map
      InstanceState.instance_id = instances.map InstanceState.instance_id) ∧
    (current.deployment_in_progress = false →
      (deploy instances desired current config dry fi).current.deployment_in_progress =
        false) ∧
    (∀ res, (deploy instances desired current config dry fi).result = Except.ok res →
      res.skipped =
        (instances.filter (fun x => !needsUpdate x desired)).map InstanceState.instance_id ∧
      (res.rolled_back = true →
        res.success = false ∧
        ((instances.map InstanceState.instance_id).Nodup →
          (deploy instances desired current config dry fi).instances = instances)) ∧
      (res.rolled_back = false →
        List.Sublist res.updated
          ((instances.filter (fun x => needsUpdate x desired)).map
            InstanceState.instance_id) ∧
        List.Sublist res.failed
          ((instances.filter (fun x => needsUpdate x desired)).map
            InstanceState.instance_id) ∧
        (dry = false →
          List.Perm (res.updated ++ res.failed)
            ((instances.filter (fun x => needsUpdate x desired)).map
              InstanceState.instance_id))) ∧
      (res.success = true → dry = false →
        ∀ inst ∈ (deploy instances desired current config dry fi).instances,
          inst.instance_id ∉ res.skipped →
          inst.code_version = desired.code_version ∧
          inst.configuration_version = desired.configuration_version ∧
          inst.health = Health.HEALTHY)) := by
  set out := deploy instances desired current config dry fi with hout
  by_cases hflag : current.deployment_in_progress = true
  · rw [hout, show deploy instances desired current config dry fi =
      ⟨instances, current, fi, Except.error DeployError.concurrent⟩ from by
        unfold deploy; rw [if_pos hflag]]
    exact ⟨rfl, fun h => h, fun res hres => Except.noConfusion hres⟩
  · simp only [deploy] at hout
    rw [if_neg hflag] at hout
    set F := findInstancesToUpdate instances desired with hF
    have hF1 : F.1 = (findToUpdateGo desired instances).1 := by rw [hF]; rfl
    have hF2 : F.2 = (findToUpdateGo desired instances).2 := by rw [hF]; rfl
    have hskipF : F.2 =
        (instances.filter (fun x => !needsUpdate x desired)).map InstanceState.instance_id := by
      rw [hF2, findToUpdateGo_skipped]
    by_cases hdry : (dry || F.1.isEmpty) = true
    · rw [if_pos hdry] at hout
      dsimp only [emptyResult] at hout
      obtain ⟨hh1, hh2, hh3, hh4, hh5, hh6⟩ :=
        handleDryRunOrNoUpdates_fields
          (⟨false, [], [], F.2, none, false, [], []⟩ : DeploymentResult)
          F.1.length dry desired current
      set H := handleDryRunOrNoUpdates
        (⟨false, [], [], F.2, none, false, [], []⟩ : DeploymentResult)
        F.1.length dry desired current with hH
      have hrbH : H.1.rolled_back = false := hh5.trans rfl
      have hupdH : H.1.updated = [] := hh2.trans rfl
      have hfailH : H.1.failed = [] := hh3.trans rfl
      have hskipH : H.1.skipped = F.2 := hh4.trans rfl
      refine ⟨?_, ?_, ?_⟩
      · rw [hout]
      · intro h
        rw [hout]
        show H.2.deployment_in_progress = false
        rw [hh6, h]
      · intro res hres
        rw [hout] at hres
        have hres' : res = H.1 := (Except.ok.inj hres).symm
        subst hres'
        refine ⟨?_, ?_, ?_, ?_⟩
        · rw [hskipH, hskipF]
        · intro hrb
          rw [hrbH] at hrb
          exact absurd hrb (by simp)
        · intro _
          refine ⟨by rw [hupdH]; exact List.nil_sublist _,
            by rw [hfailH]; exact List.nil_sublist _, ?_⟩
          intro hdryf
          have hempty : F.1.isEmpty = true := by
            rw [hdryf] at hdry
            simpa using hdry
          have hnil : F.1 = [] := by simpa using hempty
          have hfilnil : instances.filter (fun x => needsUpdate x desired) = [] := by
            rw [← findToUpdateGo_map_getD desired instances, ← hF1, hnil]
            rfl
          rw [hupdH, hfailH, hfilnil]
          simp
        · intro _ hdryf inst hinst hnotskip
          have hempty : F.1.isEmpty = true := by
            rw [hdryf] at hdry
            simpa using hdry
          have hnil : F.1 = [] := by simpa using hempty
          have hfilnil : instances.filter (fun x => needsUpdate x desired) = [] := by
            rw [← findToUpdateGo_map_getD desired instances, ← hF1, hnil]
            rfl
          have hinst' : inst ∈ instances := by
            rw [hout] at hinst
            exact hinst
          have hnn : needsUpdate inst desired = false := by
            have := List.filter_eq_nil_iff.mp hfilnil inst hinst'
            revert this
            cases needsUpdate inst desired <;> simp
          have hmemf : inst ∈ instances.filter (fun x => !needsUpdate x desired) :=
            List.mem_filter.mpr ⟨hinst', by rw [hnn]; rfl⟩
          have hidmem : inst.instance_id ∈ H.1.skipped := by
            rw [hskipH, hskipF]
            exact List.mem_map.mpr ⟨inst, hmemf, rfl⟩
          exact absurd hidmem hnotskip
    · rw [if_neg hdry] at hout
      cases hpb : planBatches F.1 config.batch_size with
      | error e =>
        rw [hpb] at hout
        refine ⟨?_, ?_, ?_⟩
        · rw [hout]
        · intro _
          rw [hout]
        · intro res hres
          rw [hout] at hres
          exact Except.noConfusion hres
      | ok batches =>
        rw [hpb] at hout
        dsimp only [emptyResult] at hout
        have hbsz : ¬ config.batch_size ≤ 0 := by
          intro hc
          unfold planBatches at hpb
          rw [if_pos hc] at hpb
          exact Except.noConfusion hpb
        have hbatches : batches = chunkFuel config.batch_size.toNat F.1.length F.1 := by
          unfold planBatches at hpb
          rw [if_neg hbsz] at hpb
          exact (Except.ok.inj hpb).symm
        have hflat : batches.flatten = F.1 := by
          rw [hbatches]
          exact chunkFuel_flatten config.batch_size.toNat (by omega) F.1.length F.1 le_rfl
        have hrange : ∀ i ∈ batches.flatten, i < instances.length := by
          intro i hi
          rw [hflat, hF1] at hi
          exact ((findToUpdateGo_mem desired instances i).mp hi).1
        have hnd : batches.flatten.Nodup := by
          rw [hflat, hF1]
          exact findToUpdateGo_nodup desired instances
        set RO := runBatches desired config (batches.map List.length).sum
          (buildSnapshot instances) batches 1 instances fi
          (⟨false, [], [], F.2, none, false, [], []⟩ : DeploymentResult) [] [] with hRO
        obtain ⟨m1, m2, m3⟩ := runBatches_spec desired config (batches.map List.length).sum
          (buildSnapshot instances) batches 1 instances fi
          (⟨false, [], [], F.2, none, false, [], []⟩ : DeploymentResult) [] [] RO hRO hrange hnd
        have hjids : batches.flatten.map (fun i => (instances.getD i default).instance_id) =
            (instances.filter (fun x => needsUpdate x desired)).map
              InstanceState.instance_id := by
          rw [hflat, hF1, ← findToUpdateGo_map_getD desired instances, List.map_map]
          rfl
        by_cases hab : RO.aborted = true
        · rw [if_pos hab] at hout
          obtain ⟨q1, q2, q3, q4, q5, q6⟩ := m3 hab
          refine ⟨?_, ?_, ?_⟩
          · rw [hout]
            exact m1
          · intro _
            rw [hout]
          · intro res hres
            rw [hout] at hres
            have hres' : res = RO.result := (Except.ok.inj hres).symm
            subst hres'
            refine ⟨?_, ?_, ?_, ?_⟩
            · rw [← hskipF]
              exact q4.trans rfl
            · intro _
              refine ⟨q2, ?_⟩
              intro hnodup
              obtain ⟨fc, hfc1, hfc2⟩ := q6
              rw [hout]
              show RO.fleet = instances
              rw [hfc2]
              exact rollbackList_exact (buildSnapshot instances) fc instances hfc1
                (fun x hx => buildSnapshot_mem x instances hnodup hx)
            · intro hrbf
              rw [q1] at hrbf
              exact absurd hrbf (by simp)
            · intro hsucc _
              rw [q2] at hsucc
              exact absurd hsucc (by simp)
        · have habf : RO.aborted = false := by
            revert hab
            cases RO.aborted <;> simp
          rw [if_neg hab] at hout
          obtain ⟨⟨u1, f1, hu, hf, hsU, hsF, hpm⟩, mfields, mframe, mE⟩ := m2 habf
          have hu' : RO.updated = u1 := by simpa using hu
          have hf' : RO.failed = f1 := by simpa using hf
          refine ⟨?_, ?_, ?_⟩
          · rw [hout]
            exact m1
          · intro _
            rw [hout]
          · intro res hres
            rw [hout] at hres
            have hres' : res = { RO.result with
                updated := RO.updated
                failed := RO.failed
                success := RO.failed.isEmpty } := (Except.ok.inj hres).symm
            subst hres'
            refine ⟨?_, ?_, ?_, ?_⟩
            · show RO.result.skipped = _
              rw [← hskipF]
              exact mfields.1.trans rfl
            · intro hrb
              have hrb0 : RO.result.rolled_back = false := mfields.2.2.1.trans rfl
              rw [show ({ RO.result with
                  updated := RO.updated
                  failed := RO.failed
                  success := RO.failed.isEmpty } : DeploymentResult).rolled_back =
                RO.result.rolled_back from rfl, hrb0] at hrb
              exact absurd hrb (by simp)
            · intro _
              refine ⟨?_, ?_, ?_⟩
              · show List.Sublist RO.updated _
                rw [hu', ← hjids]
                exact hsU
              · show List.Sublist RO.failed _
                rw [hf', ← hjids]
                exact hsF
              · intro _
                show List.Perm (RO.updated ++ RO.failed) _
                rw [hu', hf', ← hjids]
                exact hpm
            · intro hsucc _ inst hinst hnotskip
              have hfailnil : RO.failed = [] := by
                have h0 : RO.failed.isEmpty = true := hsucc
                simpa using h0
              have hinst' : inst ∈ RO.fleet := by
                rw [hout] at hinst
                exact hinst
              obtain ⟨k, hk, hget⟩ := List.mem_iff_getElem.mp hinst'
              have hlen : RO.fleet.length = instances.length := map_eq_length_eq m1
              have hk' : k < instances.length := by omega
              have hgetD : RO.fleet.getD k default = inst := by
                rw [List.getD_eq_getElem RO.fleet default hk]
                exact hget
              by_cases hneed : needsUpdate (instances.getD k default) desired = true
              · have hkmem : k ∈ batches.flatten := by
                  rw [hflat, hF1]
                  exact (findToUpdateGo_mem desired instances k).mpr ⟨hk', hneed⟩
                rcases mE k hkmem with hupd | hfid
                · rw [hgetD] at hupd
                  rw [hupd]
                  exact ⟨rfl, rfl, rfl⟩
                · rw [hfailnil] at hfid
                  exact absurd hfid (by simp)
              · have hmem0 : instances.getD k default ∈ instances := by
                  rw [List.getD_eq_getElem instances default hk']
                  exact List.getElem_mem hk'
                have hnn : needsUpdate (instances.getD k default) desired = false := by
                  revert hneed
                  cases needsUpdate (instances.getD k default) desired <;> simp
                have hmemf : instances.getD k default ∈
                    instances.filter (fun x => !needsUpdate x desired) :=
                  List.mem_filter.mpr ⟨hmem0, by rw [hnn]; rfl⟩
                have hid : inst.instance_id = (instances.getD k default).instance_id := by
                  rw [← hgetD]
                  exact idFrame_getD m1 k
                have hidmem : inst.instance_id ∈
                    ({ RO.result with
                      updated := RO.updated
                      failed := RO.failed
                      success := RO.failed.isEmpty } : DeploymentResult).skipped := by
                  show inst.instance_id ∈ RO.result.skipped
                  rw [show RO.result.skipped =
                    (⟨false, [], [], F.2, none, false, [], []⟩ : DeploymentResult).skipped
                    from mfields.1, show (⟨false, [], [], F.2, none, false, [], []⟩ :
                    DeploymentResult).skipped = F.2 from rfl, hskipF, hid]
                  exact List.mem_map.mpr ⟨_, hmemf, rfl⟩
                exact absurd hidmem hnotskip

/-- Claim C10: deploy never adds, removes or reorders elements of the input
instances collection, and deploy and rollback mutate only the code_version,
configuration_version and health fields of the existing elements: on every
exit path the per-position instance_id sequence of the fleet is unchanged
(instance_id is the only other field of InstanceState), and likewise for a
standalone rollback call. -/
theorem C10_frame (instances : List InstanceState) (desired current : SystemState)
    (config : DeploymentConfig) (dry : Bool) (fi : FailureInjector)
    (snapshot : String → Option InstanceState) :
    (deploy instances desired current config dry fi).instances.map
      InstanceState.instance_id = instances.map InstanceState.instance_id ∧
    (rollbackList instances snapshot).map InstanceState.instance_id =
      instances.map InstanceState.instance_id :=
  ⟨(deploy_spec instances desired current config dry fi).1,
   rollbackList_map_id snapshot instances⟩

/-- Counterexample to claim C3 as stated: a deploy call entered with
deployment_in_progress true raises the concurrent-deployment error and the
flag is still true when it raises, not false. -/
theorem C3_counterexample :
    (deploy instAB des2 curBusy cfgB1F0 false fi0).result =
      Except.error DeployError.concurrent ∧
    (deploy instAB des2 curBusy cfgB1F0 false fi0).current.deployment_in_progress =
      true :=
  ⟨rfl, rfl⟩

/-- Claim C3 (amended): for every deploy call entered with
deployment_in_progress false, the flag is false when the call returns or
raises — on normal returns, dry-run and no-updates returns, aborts with
rollback, and the ConfigError raised from batch planning.  The one
exception, forced by the counterexample, is the ConcurrentDeploymentError
re-entry guard: there the flag was already true on entry and deploy leaves
it untouched, so it is still true when that error propagates. -/
theorem C3_flag_hygiene (instances : List InstanceState) (desired current : SystemState)
    (config : DeploymentConfig) (dry : Bool) (fi : FailureInjector)
    (h : current.deployment_in_progress = false) :
    (deploy instances desired current config dry fi).current.deployment_in_progress =
      false :=
  (deploy_spec instances desired current config dry fi).2.1 h

theorem C3_witness :
    cur1.deployment_in_progress = false ∧
    (deploy instAB des2 cur1 cfgB1F0 false fi0).current.deployment_in_progress = false :=
  ⟨rfl, C3_flag_hygiene instAB des2 cur1 cfgB1F0 false fi0 rfl⟩

/-- Counterexample to claim C1 as stated: on a run that aborts and rolls
back, the code clears updated to [] and never processes later batches, so
the union of the three lists misses input instances.  Concretely, with two
outdated instances a and b in singleton batches, max_failures 0 and a
failing injected for a, the returned lists are updated = [], failed = [a],
skipped = [] while the input ids are [a, b]: b is in none of the lists. -/
theorem C1_counterexample :
    (deploy instAB des2 cur1 cfgB1F0 false fiA).result.toOption.map
      (fun r => (r.updated, r.failed, r.skipped, r.rolled_back)) =
      some ([], ["a"], [], true) ∧
    instAB.map InstanceState.instance_id = ["a", "b"] ∧
    ("b" ∈ (([] : List String) ++ ["a"] ++ [])) = False :=
  ⟨rfl, rfl, by simp⟩

/-- Claim C1 (amended): for every deploy call with dry_run false whose
result has rolled_back false and whose input instance_ids are distinct,
updated ++ failed ++ skipped is a permutation of the input instance_ids
(so their union is exactly the input id set) and the three lists are
pairwise disjoint.  The claim's original scope had to be narrowed: on
aborted runs updated is cleared and unprocessed batches are missing, and
on dry runs updated and failed stay empty, so there the union can be a
strict subset of the input ids. -/
theorem C1_partition (instances : List InstanceState) (desired current : SystemState)
    (config : DeploymentConfig) (fi : FailureInjector) (res : DeploymentResult)
    (hnodup : (instances.map InstanceState.instance_id).Nodup)
    (hres : (deploy instances desired current config false fi).result = Except.ok res)
    (hrb : res.rolled_back = false) :
    List.Perm (res.updated ++ res.failed ++ res.skipped)
      (instances.map InstanceState.instance_id) ∧
    res.updated.Disjoint res.failed ∧
    res.updated.Disjoint res.skipped ∧
    res.failed.Disjoint res.skipped := by
  obtain ⟨_, _, hc⟩ := deploy_spec instances desired current config false fi
  obtain ⟨hskip, _, horder, _⟩ := hc res hres
  obtain ⟨_, _, hperm⟩ := horder hrb
  have hperm' := hperm rfl
  have hp2 : List.Perm (res.updated ++ res.failed ++ res.skipped)
      ((instances.filter (fun x => needsUpdate x desired)).map InstanceState.instance_id ++
        (instances.filter (fun x => !needsUpdate x desired)).map InstanceState.instance_id) := by
    rw [hskip]
    exact hperm'.append (List.Perm.refl _)
  have h3 := (List.filter_append_perm (fun x => needsUpdate x desired) instances).map
    InstanceState.instance_id
  rw [List.map_append] at h3
  have htotal := hp2.trans h3
  have hndall : (res.updated ++ res.failed ++ res.skipped).Nodup :=
    htotal.nodup_iff.mpr hnodup
  obtain ⟨huf, hs, hufs⟩ := List.nodup_append.mp hndall
  obtain ⟨_, _, hufd⟩ := List.nodup_append.mp huf
  refine ⟨htotal, hufd, ?_, ?_⟩
  · intro a ha
    exact hufs (List.mem_append.mpr (Or.inl ha))
  · intro a ha
    exact hufs (List.mem_append.mpr (Or.inr ha))

theorem C1_witness :
    (instAB.map InstanceState.instance_id).Nodup ∧
    okOut.result = Except.ok okRes ∧
    okRes.rolled_back = false ∧
    (List.Perm (okRes.updated ++ okRes.failed ++ okRes.skipped)
      (instAB.map InstanceState.instance_id) ∧
     okRes.updated.Disjoint okRes.failed ∧
     okRes.updated.Disjoint okRes.skipped ∧
     okRes.failed.Disjoint okRes.skipped) :=
  ⟨by decide, rfl, rfl,
   C1_partition instAB des2 cur1 cfgB1F0 fi0 okRes (by decide) rfl rfl⟩

/-- Claim C2: for every deploy call that returns a result with rolled_back
true (and distinct input instance_ids, the data model's uniqueness
requirement), the whole fleet equals its pre-deployment state — every
instance's code_version, configuration_version and health are restored
from the snapshot taken before the first mutation — and success is
false. -/
theorem C2_rollback_exactness (instances : List InstanceState)
    (desired current : SystemState) (config : DeploymentConfig) (dry : Bool)
    (fi : FailureInjector) (res : DeploymentResult)
    (hnodup : (instances.map InstanceState.instance_id).Nodup)
    (hres : (deploy instances desired current config dry fi).result = Except.ok res)
    (hrb : res.rolled_back = true) :
    (deploy instances desired current config dry fi).instances = instances ∧
    res.success = false := by
  obtain ⟨_, _, hc⟩ := deploy_spec instances desired current config dry fi
  obtain ⟨_, hc2, _, _⟩ := hc res hres
  obtain ⟨hfalse, hexact⟩ := hc2 hrb
  exact ⟨hexact hnodup, hfalse⟩

theorem C2_witness :
    (instAB.map InstanceState.instance_id).Nodup ∧
    abortOut.result = Except.ok abortRes ∧
    abortRes.rolled_back = true ∧
    (abortOut.instances = instAB ∧ abortRes.success = false) :=
  ⟨by decide, rfl, rfl,
   C2_rollback_exactness instAB des2 cur1 cfgB1F0 false fiA abortRes (by decide) rfl rfl⟩

/-- Counterexample to claim C4 as stated: a dry run over one outdated
instance returns success = true with skipped = [], yet the instance — not
in skipped — still carries the old code_version "v1" instead of the
desired "v2" (dry runs mutate nothing). -/
theorem C4_counterexample :
    dryOut.result.toOption.map (fun r => (r.success, r.skipped)) = some (true, []) ∧
    dryOut.instances = [⟨"a", "v1", "c1", Health.HEALTHY⟩] ∧
    des2.code_version = "v2" ∧
    (⟨"a", "v1", "c1", Health.HEALTHY⟩ : InstanceState).code_version ≠ "v2" :=
  ⟨rfl, rfl, rfl, by decide⟩

/-- Claim C4 (amended): for every deploy call with dry_run false that
returns success = true (this includes the no-updates-needed return, where
the claim holds vacuously because every instance is skipped), every input
instance whose id is not in skipped has code_version and
configuration_version equal to the desired pair and health HEALTHY.  Dry
runs had to be excluded: they return success = true without mutating any
instance and without skipping the instances that need updates. -/
theorem C4_success_state (instances : List InstanceState) (desired current : SystemState)
    (config : DeploymentConfig) (fi : FailureInjector) (res : DeploymentResult)
    (hres : (deploy instances desired current config false fi).result = Except.ok res)
    (hsucc : res.success = true) :
    ∀ inst ∈ (deploy instances desired current config false fi).instances,
      inst.instance_id ∉ res.skipped →
      inst.code_version = desired.code_version ∧
      inst.configuration_version = desired.configuration_version ∧
      inst.health = Health.HEALTHY := by
  obtain ⟨_, _, hc⟩ := deploy_spec instances desired current config false fi
  obtain ⟨_, _, _, h4⟩ := hc res hres
  exact h4 hsucc rfl

theorem C4_witness :
    okOut.result = Except.ok okRes ∧
    okRes.success = true ∧
    ((okOut.instances.getD 0 default).code_version = des2.code_version ∧
     (okOut.instances.getD 0 default).configuration_version = des2.configuration_version ∧
     (okOut.instances.getD 0 default).health = Health.HEALTHY) :=
  ⟨rfl, rfl,
   C4_success_state instAB des2 cur1 cfgB1F0 fi0 okRes rfl rfl
     (okOut.instances.getD 0 default) (by decide) (by decide)⟩

/-- Counterexample to claim C6 as stated: with one batch of two outdated
instances a then b, where a fails and b succeeds and no threshold trips,
the run returns without aborting with updated = [b] and failed = [a];
their concatenation [b, a] puts b before a even though a precedes b in the
input and both needed updates. -/
theorem C6_counterexample :
    mixedOut.result.toOption.map (fun r => (r.updated ++ r.failed, r.rolled_back)) =
      some (["b", "a"], false) ∧
    (instAB.filter (fun x => needsUpdate x des2)).map InstanceState.instance_id =
      ["a", "b"] ∧
    List.indexOf "b" ["b", "a"] < List.indexOf "a" ["b", "a"] :=
  ⟨rfl, rfl, by decide⟩

/-- Claim C6 (amended): for every deploy call that returns without
aborting, each of updated and failed separately is a sublist of the ids of
the instances that needed updates taken in input order — so each list on
its own preserves relative input order.  The concatenation
updated ++ failed does not in general: within a batch a failed instance is
appended after all of the batch's successful ones even when it precedes
them in the input, which is what the counterexample exploits. -/
theorem C6_order (instances : List InstanceState) (desired current : SystemState)
    (config : DeploymentConfig) (dry : Bool) (fi : FailureInjector)
    (res : DeploymentResult)
    (hres : (deploy instances desired current config dry fi).result = Except.ok res)
    (hrb : res.rolled_back = false) :
    List.Sublist res.updated
      ((instances.filter (fun x => needsUpdate x desired)).map
        InstanceState.instance_id) ∧
    List.Sublist res.failed
      ((instances.filter (fun x => needsUpdate x desired)).map
        InstanceState.instance_id) := by
  obtain ⟨_, _, hc⟩ := deploy_spec instances desired current config dry fi
  obtain ⟨_, _, h3, _⟩ := hc res hres
  exact ⟨(h3 hrb).1, (h3 hrb).2.1⟩

theorem C6_witness :
    mixedOut.result = Except.ok mixedRes ∧
    mixedRes.rolled_back = false ∧
    (List.Sublist mixedRes.updated
      ((instAB.filter (fun x => needsUpdate x des2)).map InstanceState.instance_id) ∧
     List.Sublist mixedRes.failed
      ((instAB.filter (fun x => needsUpdate x des2)).map InstanceState.instance_id)) :=
  ⟨rfl, rfl, C6_order instAB des2 cur1 cfgB2 false fiA mixedRes rfl rfl⟩

end DeploymentEngine
